import Mathlib

/-!
Verification of the process/protocol core of the sublime-text-merlin plugin.

The definitions in this file are shallow embeddings of the Python code in
`src/process.py` and `src/merlin/process.py` (the transport, protocol
negotiation, buffer synchronisation and session/acquire logic of the
plugin).  Each definition's doc comment names the function it embeds.
-/

namespace Merlin

/-- JSON values, as produced by `json.loads` of one response line.
Python `None` is `Json.null`; objects are association lists with distinct
keys (as `json.loads` yields). -/
inductive Json where
  | null
  | bool (b : Bool)
  | num (n : Int)
  | str (s : String)
  | arr (elems : List Json)
  | obj (fields : List (String × Json))

/-- The four ways `MerlinProcess.send_command` can finish when it reaches the
tag dispatch: return a value (Python `None` is `Json.null`), or raise one of
the three exception classes `Failure`, `Error`, `MerlinException`
(src/process.py lines 9-31, src/merlin/process.py lines 10-32), each
carrying its payload. -/
inductive PyOutcome where
  | ret (v : Json)
  | raiseFailure (v : Json)
  | raiseError (v : Json)
  | raiseMerlinException (v : Json)

/-- The tag dispatch shared by both versions of `send_command`
(src/process.py lines 87-94, src/merlin/process.py lines 125-132):
sequential `==` tests against the four tag strings; when no branch matches
the Python function falls off the end and returns `None`. -/
def dispatch (tag content : Json) : PyOutcome :=
  match tag with
  | Json.str "return" => PyOutcome.ret content
  | Json.str "failure" => PyOutcome.raiseFailure content
  | Json.str "error" => PyOutcome.raiseError content
  | Json.str "exception" => PyOutcome.raiseMerlinException content
  | _ => PyOutcome.ret Json.null

/-- Response handling of `MerlinProcess.send_command` in src/process.py
(lines 82-94), applied to the decoded response array: `content` is `None`
unless the array has exactly two elements, in which case it is the second;
the first element is the tag.  An empty array makes `result[0]` raise
`IndexError`, modelled as `none`. -/
def send_command_legacy (result : List Json) : Option PyOutcome :=
  match result with
  | [] => none
  | tag :: rest =>
    let content := match rest with
      | [v] => v
      | _ => Json.null
    some (dispatch tag content)

/-- Python `result['k']` on a decoded JSON object. -/
def lookupField (fields : List (String × Json)) (k : String) : Option Json :=
  match fields with
  | [] => none
  | (k', v) :: rest => if k' = k then some v else lookupField rest k

/-- Whether `for msg in x` succeeds on a decoded JSON value (arrays, strings
and objects are iterable in Python; the iteration in `send_command` only
prints notifications). -/
def pyIterable : Json → Bool
  | Json.arr _ => true
  | Json.str _ => true
  | Json.obj _ => true
  | _ => false

/-- Response handling of `MerlinProcess.send_command` in src/merlin/process.py
(lines 112-132): a decoded object is read through its `class`, `value` and
`notifications` keys (a missing key raises `KeyError`, a non-iterable
`notifications` raises `TypeError`, both modelled as `none`; iterating
`notifications` only logs); a decoded array is read exactly as the legacy
framing; any other decoded value makes `result[0]` raise, modelled `none`. -/
def send_command_env (result : Json) : Option PyOutcome :=
  match result with
  | Json.obj fields =>
    match lookupField fields "class", lookupField fields "value",
          lookupField fields "notifications" with
    | some c, some v, some notifs =>
      if pyIterable notifs then some (dispatch c v) else none
    | _, _, _ => none
  | Json.arr elems => send_command_legacy elems
  | _ => none

/-- A subprocess handle (a `subprocess.Popen` object): identified by its pid,
with `returncode` equal to `none` while the process is still running. -/
structure Pipe where
  pid : Nat
  returncode : Option Int
deriving DecidableEq

/-- The mutable state of a `MerlinProcess` object (src/process.py lines
39-41): the subprocess handle `mainpipe` and the buffer identity `name`
it was last acquired for; both start out as `None`. -/
structure MerlinState where
  mainpipe : Option Pipe
  name : Option String
deriving DecidableEq

/-- The spawn-on-demand guard at the top of `send_command` (src/process.py
line 76, src/merlin/process.py line 106): restart exactly when there is no
pipe yet or the previous pipe has exited. -/
def needsRestart (st : MerlinState) : Bool :=
  match st.mainpipe with
  | none => true
  | some p => p.returncode != none

/-- One `send_command` call (src/process.py lines 70-94) at the state level:
the handle is replaced by a freshly spawned `fresh` exactly when
`needsRestart`, then the response array read back is decoded by
`send_command_legacy`.  Nothing else in the call touches `mainpipe`. -/
def send_command_step (st : MerlinState) (fresh : Pipe) (response : List Json) :
    MerlinState × Option PyOutcome :=
  let st' := if needsRestart st then { st with mainpipe := some fresh } else st
  (st', send_command_legacy response)

/-- Requests that `acquire`/`reset` (and queries issued between them) write
to the subprocess.  `query id` stands for any query request issued while the
process is pointed at buffer identity `id`. -/
inductive Cmd where
  | reset (kind : String) (name : Option String)
  | findUse (packages : List String)
  | query (ident : Option String)
deriving DecidableEq

/-- Python truthiness of a name argument (`if name:`): `None` and the empty
string are falsy. -/
def truthyName : Option String → Bool
  | some s => !(s == "")
  | none => false

/-- The single request written by `MerlinProcess.reset` (src/process.py
lines 114-117): `["reset", kind, name]` when `name` is truthy, else
`["reset", kind]`. -/
def resetRequest (kind : String) (name : Option String) : Cmd :=
  if truthyName name then Cmd.reset kind name else Cmd.reset kind none

/-- All requests written by `MerlinProcess.reset` (src/process.py lines
109-120): the reset itself, then `find_use("ocamlbuild")` when the name is
`myocamlbuild.ml`. -/
def resetCmds (kind : String) (name : Option String) : List Cmd :=
  resetRequest kind name ::
    (if name = some "myocamlbuild.ml" then [Cmd.findUse ["ocamlbuild"]] else [])

/-- `MerlinProcess.acquire` (src/process.py lines 100-107) with
`reset`'s possible failure made explicit: when the requested `name` differs
from the current one, `self.name` is assigned first and only then is the
reset sent, so the post-call state records `name` even when the reset's
`send_command` raises (`resetRaises`); in that case the reset request was
already written but `find_use` is not reached, and the exception
propagates out of `acquire` (third component).  Identical names send
nothing.  `acquire` uses `reset`'s default kind `"ml"`. -/
def acquire (st : MerlinState) (name : Option String) (resetRaises : Bool) :
    MerlinState × List Cmd × Bool :=
  if st.name ≠ name then
    ({ st with name := name },
     if resetRaises then [resetRequest "ml" name] else resetCmds "ml" name,
     resetRaises)
  else (st, [], false)

/-- Events at the `merlin_process` boundary (src/merlin.py lines 14-19):
every command object calls `merlin_process(name)` — i.e. `acquire(name)` on
the shared `MerlinProcess` — and then issues queries on the handle it got
back. -/
inductive Ev where
  | acq (name : Option String)
  | qry

/-- Run a sequence of acquire/query events against the shared process and
collect the requests written to the subprocess, a query being tagged with
the identity the process is pointed at when it is written. -/
def runEvents (st : MerlinState) : List Ev → List Cmd
  | [] => []
  | Ev.acq n :: rest =>
    let r := acquire st n false
    r.2.1 ++ runEvents r.1 rest
  | Ev.qry :: rest => Cmd.query st.name :: runEvents st rest

/-- Checks that in a request trace, all queries between two consecutive
resets carry the same identity.  The accumulator is `none` right after a
reset (no query seen yet in the current segment) and `some id` once a query
for `id` has been seen. -/
def sameIdentSegments : List Cmd → Option (Option String) → Bool
  | [], _ => true
  | Cmd.reset _ _ :: rest, _ => sameIdentSegments rest none
  | Cmd.findUse _ :: rest, seg => sameIdentSegments rest seg
  | Cmd.query n :: rest, none => sameIdentSegments rest (some n)
  | Cmd.query n :: rest, some m => n == m && sameIdentSegments rest (some m)

/-- Whether a request is a reset carrying the identity `n`. -/
def isResetCarrying (n : String) : Cmd → Bool
  | Cmd.reset _ (some m) => m == n
  | _ => false

/-- `main_protocol_version = 3` (src/merlin/process.py line 8). -/
def main_protocol_version : Int := 3

/-- The messages `restart` can pass to `sublime.error_message`
(src/merlin/process.py lines 75-84), by their format string; the payloads
are the values interpolated into it. -/
inductive Warn where
  | unsupportedProtocol (plugin selected : Int)
  | pluginOutdated (plugin latest : Int)
  | unsupportedBinary (err : String)
deriving DecidableEq

/-- A decoded handshake response `{selected, latest}` with integer fields,
the shape the negotiation code reads. -/
structure VersionResp where
  selected : Int
  latest : Int
deriving DecidableEq

/-- The protocol-version negotiation block of `MerlinProcess.restart`
(src/merlin/process.py lines 70-88).  Input: the result of the handshake
request `["protocol", "version", 3]`, either a decoded `{selected, latest}`
or the exception it raised.  Output: the `_protocol_version` recorded on
the handle and the message surfaced through `sublime.error_message`
(`none` when `err_msg` stays unset).  On success the version is set to
`selected` whether or not it is supported; on any exception it is set
to 1 and an "Unsupported version of Merlin binary" message is surfaced. -/
def negotiate (handshake : Except String VersionResp) : Int × Option Warn :=
  match handshake with
  | Except.ok v =>
    let err : Option Warn :=
      if ¬ (v.selected = 2 ∨ v.selected = 3) then
        some (Warn.unsupportedProtocol main_protocol_version v.selected)
      else if v.latest > main_protocol_version then
        some (Warn.pluginOutdated main_protocol_version v.latest)
      else none
    (v.selected, err)
  | Except.error e => (1, some (Warn.unsupportedBinary e))

def jsonOfOptStr : Option String → Json
  | some s => Json.str s
  | none => Json.null

def jsonOfOptInt : Option Int → Json
  | some n => Json.num n
  | none => Json.null

/-- The requests `MerlinView.send_query` (src/merlin/process.py lines
144-151) writes for one query, as a function of the negotiated protocol
version: under version 1 a legacy `["reset", "auto", file_name]` array
followed by the bare query array; under any other version a single
enveloped object. -/
def send_query_requests (pv : Int) (fileName : Option String)
    (verbosity : Option Int) (query : List Json) : List Json :=
  if pv = 1 then
    [Json.arr [Json.str "reset", Json.str "auto", jsonOfOptStr fileName],
     Json.arr query]
  else
    [Json.obj [("assoc", Json.null),
               ("printer_verbosity", jsonOfOptInt verbosity),
               ("document", Json.arr [Json.str "auto", jsonOfOptStr fileName]),
               ("query", Json.arr query)]]

/-- Whether a request uses the enveloped (v2+) framing, i.e. is a JSON
object rather than a bare array. -/
def isEnvelopedReq : Json → Bool
  | Json.obj _ => true
  | _ => false

/-- The cursor commands `sync_buffer_to` sends (src/process.py lines
132-158): `seek before {line 1, col 0}`, `tell start`, `tell source s`
(with the chunk text), `tell marker`, `tell eof` (what `tell_source(None)`
sends), and `seek marker`. -/
inductive Msg where
  | seekStart
  | tellStart
  | tellSource (s : List Char)
  | tellMarker
  | tellEOF
  | seekMarker
deriving DecidableEq

/-- A deterministic model of the analysis subprocess on the other side of
the sync protocol: an opaque state, a transition for each received command,
and the `marker` field of the cursor answer it sends back after a command
(read by the client from the `tell_marker`/`tell_source` responses;
`true` means the marker is still pending, `false` that the oracle has
consumed input past it). -/
structure Oracle where
  State : Type
  step : State → Msg → State
  marker : State → Bool

/-- The streaming loop of `sync_buffer_to` (src/process.py lines 200-208):
while the last reported marker is pending and the cursor has not reached
the end of the buffer, send the next chunk
`view.substr(Region(cursor, min(cursor + 1024, end)))` and read the marker
from its answer; on exit send `tell eof` if the marker is still pending,
else `seek marker`.  Returns the commands sent and the oracle's final
state. -/
def syncLoop (o : Oracle) (buf : List Char) (endPos : Nat) :
    Nat → Bool → o.State → List Msg × o.State
  | cursor, m, s =>
    if _h : m = true ∧ cursor < endPos then
      let next := min (cursor + 1024) endPos
      let chunk := (buf.drop cursor).take (next - cursor)
      let s' := o.step s (Msg.tellSource chunk)
      let r := syncLoop o buf endPos next (o.marker s') s'
      (Msg.tellSource chunk :: r.1, r.2)
    else if m then
      ([Msg.tellEOF], o.step s Msg.tellEOF)
    else
      ([Msg.seekMarker], o.step s Msg.seekMarker)
  termination_by cursor => endPos - cursor
  decreasing_by omega

/-- The oracle state after the preamble of `sync_buffer_to`
(src/process.py lines 195-199): `seek_start()`, `tell_start()`,
`tell_source(view.substr(Region(0, cursor)))`, `tell_marker()` — the
response of the last of these carries the marker status that seeds the
streaming loop. -/
def preambleState (o : Oracle) (s : o.State) (buf : List Char)
    (cursor : Nat) : o.State :=
  o.step (o.step (o.step (o.step s Msg.seekStart) Msg.tellStart)
    (Msg.tellSource (buf.take cursor))) Msg.tellMarker

/-- The oracle state after additionally receiving the given chunks through
`tell source`, in order. -/
def tellFold (o : Oracle) (s : o.State) (chunks : List (List Char)) :
    o.State :=
  chunks.foldl (fun t c => o.step t (Msg.tellSource c)) s

/-- `MerlinProcess.sync_buffer_to` (src/process.py lines 189-208) run
against a deterministic oracle from state `s`: seek to the start, tell
start, tell the content from offset 0 up to `cursor`
(`view.substr(Region(0, cursor))`), place the marker and read its status,
then stream the rest of the buffer through `syncLoop`.  Returns the
commands sent and the oracle's final state. -/
def sync_buffer_to (o : Oracle) (s : o.State) (buf : List Char) (cursor : Nat) :
    List Msg × o.State :=
  let s4 := preambleState o s buf cursor
  let r := syncLoop o buf buf.length cursor (o.marker s4) s4
  (Msg.seekStart :: Msg.tellStart :: Msg.tellSource (buf.take cursor) ::
     Msg.tellMarker :: r.1, r.2)

/-- A trivial concrete oracle: a single state whose marker is always
already satisfied. -/
def constOracle : Oracle where
  State := Unit
  step := fun _ _ => ()
  marker := fun _ => false

/-- When the tag is none of the four recognised ones, the dispatch falls
off the end of `send_command` and returns Python `None`. -/
theorem dispatch_unknown (tag content : Json)
    (h1 : tag ≠ Json.str "return") (h2 : tag ≠ Json.str "failure")
    (h3 : tag ≠ Json.str "error") (h4 : tag ≠ Json.str "exception") :
    dispatch tag content = PyOutcome.ret Json.null := by
  unfold dispatch
  split
  · exact absurd rfl h1
  · exact absurd rfl h2
  · exact absurd rfl h3
  · exact absurd rfl h4
  · rfl

end Merlin

namespace Merlin

/-- C1: for every response the transport reads, `send_command` maps the
decoded outcome tag to the result exactly as: tag `return` returns the
payload; tag `failure` raises `Failure` with the payload; tag `error`
raises `Error` with the payload; tag `exception` raises `MerlinException`
with the payload — both for the legacy array decoder of src/process.py and
for the array/object decoder of src/merlin/process.py. -/
theorem send_command_tag_mapping (payload : Json) :
    send_command_legacy [Json.str "return", payload]
        = some (PyOutcome.ret payload) ∧
    send_command_legacy [Json.str "failure", payload]
        = some (PyOutcome.raiseFailure payload) ∧
    send_command_legacy [Json.str "error", payload]
        = some (PyOutcome.raiseError payload) ∧
    send_command_legacy [Json.str "exception", payload]
        = some (PyOutcome.raiseMerlinException payload) ∧
    send_command_env (Json.obj [("class", Json.str "return"),
        ("value", payload), ("notifications", Json.arr [])])
        = some (PyOutcome.ret payload) ∧
    send_command_env (Json.obj [("class", Json.str "failure"),
        ("value", payload), ("notifications", Json.arr [])])
        = some (PyOutcome.raiseFailure payload) ∧
    send_command_env (Json.obj [("class", Json.str "error"),
        ("value", payload), ("notifications", Json.arr [])])
        = some (PyOutcome.raiseError payload) ∧
    send_command_env (Json.obj [("class", Json.str "exception"),
        ("value", payload), ("notifications", Json.arr [])])
        = some (PyOutcome.raiseMerlinException payload) :=
  ⟨rfl, rfl, rfl, rfl, rfl, rfl, rfl, rfl⟩

/-- C2: decoding a legacy 2-element array `[tag, payload]` and decoding an
enveloped object `{"class": tag, "value": payload, "notifications": []}`
through `send_command` produce the same normalized outcome (same raised
exception class or returned value, same payload). -/
theorem legacy_env_same_outcome (tag payload : Json) :
    send_command_env (Json.arr [tag, payload])
      = send_command_env (Json.obj [("class", tag), ("value", payload),
                                    ("notifications", Json.arr [])]) :=
  rfl

/-- C9: a response whose decoded tag is none of `return`, `failure`,
`error`, `exception` makes `send_command` return Python `None` without
raising, in both decoders — the very value a successful `return` with a
null payload produces, so the two are indistinguishable at the caller. -/
theorem unknown_tag_silent_none (tag content : Json)
    (h1 : tag ≠ Json.str "return") (h2 : tag ≠ Json.str "failure")
    (h3 : tag ≠ Json.str "error") (h4 : tag ≠ Json.str "exception") :
    send_command_legacy [tag, content] = some (PyOutcome.ret Json.null) ∧
    send_command_env (Json.obj [("class", tag), ("value", content),
        ("notifications", Json.arr [])]) = some (PyOutcome.ret Json.null) ∧
    send_command_legacy [Json.str "return", Json.null]
        = some (PyOutcome.ret Json.null) := by
  refine ⟨?_, ?_, rfl⟩ <;>
    simp [send_command_legacy, send_command_env, lookupField, pyIterable,
          dispatch_unknown tag content h1 h2 h3 h4]

/-- Witness for C9 at the concrete unrecognised tag `"ok"`. -/
theorem unknown_tag_silent_none_witness :
    (Json.str "ok" ≠ Json.str "return") ∧
    (Json.str "ok" ≠ Json.str "failure") ∧
    (Json.str "ok" ≠ Json.str "error") ∧
    (Json.str "ok" ≠ Json.str "exception") ∧
    (send_command_legacy [Json.str "ok", Json.num 1]
        = some (PyOutcome.ret Json.null) ∧
     send_command_env (Json.obj [("class", Json.str "ok"),
         ("value", Json.num 1), ("notifications", Json.arr [])])
        = some (PyOutcome.ret Json.null) ∧
     send_command_legacy [Json.str "return", Json.null]
        = some (PyOutcome.ret Json.null)) :=
  ⟨by simp, by simp, by simp, by simp,
   unknown_tag_silent_none (Json.str "ok") (Json.num 1)
     (by simp) (by simp) (by simp) (by simp)⟩

/-- C8: a `failure`-tagged response on a live pipe raises a typed `Failure`
carrying the payload and leaves `mainpipe` the very same instance; with a
live pipe no response whatsoever replaces the handle; and a fresh spawn
happens only when there is no pipe or the previous pipe has exited. -/
theorem failure_keeps_handle (st : MerlinState) (p fresh : Pipe) (payload : Json)
    (hp : st.mainpipe = some p) (hlive : p.returncode = none) :
    send_command_step st fresh [Json.str "failure", payload]
        = (st, some (PyOutcome.raiseFailure payload)) ∧
    (∀ response, (send_command_step st fresh response).1 = st) ∧
    (∀ st2 response, (send_command_step st2 fresh response).1 ≠ st2 →
        st2.mainpipe = none ∨
          ∃ q, st2.mainpipe = some q ∧ q.returncode ≠ none) := by
  have hguard : needsRestart st = false := by
    simp [needsRestart, hp, hlive]
  refine ⟨?_, ?_, ?_⟩
  · simp [send_command_step, hguard, send_command_legacy, dispatch]
  · intro response
    simp [send_command_step, hguard]
  · intro st2 response hne
    rcases hmp : st2.mainpipe with _ | q
    · exact Or.inl rfl
    · refine Or.inr ⟨q, rfl, ?_⟩
      intro hq
      apply hne
      simp [send_command_step, needsRestart, hmp, hq]

/-- Witness for C8: a live pipe, the stub response
`["failure", "unbound identifier"]`. -/
theorem failure_keeps_handle_witness :
    (MerlinState.mk (some (Pipe.mk 1 none)) none).mainpipe = some (Pipe.mk 1 none) ∧
    (Pipe.mk 1 none).returncode = none ∧
    (send_command_step (MerlinState.mk (some (Pipe.mk 1 none)) none)
          (Pipe.mk 2 none) [Json.str "failure", Json.str "unbound identifier"]
        = (MerlinState.mk (some (Pipe.mk 1 none)) none,
           some (PyOutcome.raiseFailure (Json.str "unbound identifier"))) ∧
     (∀ response,
        (send_command_step (MerlinState.mk (some (Pipe.mk 1 none)) none)
            (Pipe.mk 2 none) response).1
          = MerlinState.mk (some (Pipe.mk 1 none)) none) ∧
     (∀ st2 response,
        (send_command_step st2 (Pipe.mk 2 none) response).1 ≠ st2 →
          st2.mainpipe = none ∨
            ∃ q, st2.mainpipe = some q ∧ q.returncode ≠ none)) :=
  ⟨rfl, rfl,
   failure_keeps_handle (MerlinState.mk (some (Pipe.mk 1 none)) none)
     (Pipe.mk 1 none) (Pipe.mk 2 none) (Json.str "unbound identifier") rfl rfl⟩

/-- C10: `acquire` assigns the new identity to `self.name` before sending
the reset, so even when the reset raises, the post-call state records the
new name, the exception propagates, and a later `acquire` with the same
name sends nothing (the identity switch is not atomic with respect to
query failure). -/
theorem acquire_name_set_before_reset (st : MerlinState) (name : Option String)
    (h : st.name ≠ name) :
    (acquire st name true).1.name = name ∧
    (acquire st name true).2.2 = true ∧
    (∀ b, acquire (acquire st name true).1 name b
        = ((acquire st name true).1, [], false)) := by
  have h1 : (acquire st name true).1 = { st with name := name } := by
    simp [acquire, h]
  refine ⟨by rw [h1], by simp [acquire, h], ?_⟩
  intro b
  rw [h1]
  simp [acquire]

/-- All queries written after running any event sequence respect the reset
segmentation: a query always carries the identity the process currently
points at, and acquiring a different identity emits a reset first. -/
theorem runEvents_segments_ok (evs : List Ev) :
    ∀ (st : MerlinState) (seg : Option (Option String)),
      (seg = none ∨ seg = some st.name) →
      sameIdentSegments (runEvents st evs) seg = true := by
  induction evs with
  | nil => intro st seg hseg; rfl
  | cons e rest ih =>
    intro st seg hseg
    cases e with
    | qry =>
      have hstep : sameIdentSegments (runEvents st (Ev.qry :: rest)) seg
          = sameIdentSegments (runEvents st rest) (some st.name) := by
        rcases hseg with h | h <;> subst h <;>
          simp [runEvents, sameIdentSegments]
      rw [hstep]
      exact ih st (some st.name) (Or.inr rfl)
    | acq n =>
      by_cases hn : st.name = n
      · have : runEvents st (Ev.acq n :: rest) = runEvents st rest := by
          simp [runEvents, acquire, hn]
        rw [this]
        exact ih st seg hseg
      · have hacq : runEvents st (Ev.acq n :: rest)
            = resetCmds "ml" n ++ runEvents { st with name := n } rest := by
          simp [runEvents, acquire, hn]
        rw [hacq]
        have htail := ih { st with name := n } none (Or.inl rfl)
        by_cases hmy : n = some "myocamlbuild.ml"
        · subst hmy
          simp [resetCmds, resetRequest, truthyName, sameIdentSegments, htail]
        · rcases htr : truthyName n with _ | _ <;>
            simp [resetCmds, resetRequest, htr, hmy, sameIdentSegments, htail]

end Merlin

namespace Merlin

/-- C4 (amended): whenever the requested identity differs from the current
one, `acquire` emits a reset before anything else (in particular before any
later query), and across every sequence of acquires and queries two queries
for different identities are always separated by a reset; the reset carries
the new name when the name is truthy (a non-empty string), while for a
`None` or empty-string identity a bare `["reset", "ml"]` without the name
is sent. -/
theorem acquire_reset_discipline (st : MerlinState) (n : Option String)
    (evs : List Ev) (h : st.name ≠ n) :
    (∃ k nm, ((acquire st n false).2.1).head? = some (Cmd.reset k nm)) ∧
    (truthyName n = true →
      ((acquire st n false).2.1).head? = some (Cmd.reset "ml" n)) ∧
    sameIdentSegments (runEvents st evs) none = true := by
  refine ⟨?_, ?_, runEvents_segments_ok evs st none (Or.inl rfl)⟩
  · rcases htr : truthyName n with _ | _ <;>
      simp [acquire, h, resetCmds, resetRequest, htr]
  · intro htr
    simp [acquire, h, resetCmds, resetRequest, htr]

/-- Witness for C4 (amended): switching the shared handle from `a.ml` to
`b.ml` and then running an acquire/query interleaving. -/
theorem acquire_reset_discipline_witness :
    (MerlinState.mk none (some "a.ml")).name ≠ some "b.ml" ∧
    ((∃ k nm,
        ((acquire (MerlinState.mk none (some "a.ml")) (some "b.ml") false).2.1).head?
          = some (Cmd.reset k nm)) ∧
     (truthyName (some "b.ml") = true →
        ((acquire (MerlinState.mk none (some "a.ml")) (some "b.ml") false).2.1).head?
          = some (Cmd.reset "ml" (some "b.ml"))) ∧
     sameIdentSegments
        (runEvents (MerlinState.mk none (some "a.ml"))
          [Ev.qry, Ev.acq (some "b.ml"), Ev.qry, Ev.qry, Ev.acq (some "a.ml"),
           Ev.qry])
        none = true) :=
  ⟨by simp,
   acquire_reset_discipline (MerlinState.mk none (some "a.ml")) (some "b.ml")
     [Ev.qry, Ev.acq (some "b.ml"), Ev.qry, Ev.qry, Ev.acq (some "a.ml"),
      Ev.qry]
     (by simp)⟩

/-- Counterexample to C4 as stated: switching the shared handle from
`a.ml` to the empty-string identity (the spec's identity for unsaved
buffers) sends the bare reset `["reset", "ml"]`; no reset carrying the new
name is ever sent for that switch. -/
theorem acquire_reset_empty_name_cex :
    (acquire (MerlinState.mk none (some "a.ml")) (some "") false).2.1
        = [Cmd.reset "ml" none] ∧
    ((acquire (MerlinState.mk none (some "a.ml")) (some "") false).2.1).any
        (isResetCarrying "") = false :=
  ⟨rfl, rfl⟩

/-- C5 (amended): a successful handshake whose `selected` version is
outside the supported set `{2, 3}` surfaces exactly one warning message
(the "Unsupported version of Merlin protocol" one) and the client keeps
operating with `_protocol_version` set to the server's `selected`: every
subsequent `send_query` uses the enveloped framing when `selected` is not
1, and the legacy framing when `selected` is 1 — not unconditionally the
oldest supported (v2, enveloped) framing. -/
theorem unsupported_selected_warns (v : VersionResp)
    (h : ¬ (v.selected = 2 ∨ v.selected = 3)) :
    (negotiate (Except.ok v)).2
        = some (Warn.unsupportedProtocol main_protocol_version v.selected) ∧
    (negotiate (Except.ok v)).1 = v.selected ∧
    (v.selected ≠ 1 → ∀ f vb q,
      (send_query_requests v.selected f vb q).all isEnvelopedReq = true) ∧
    (v.selected = 1 → ∀ f vb q,
      (send_query_requests v.selected f vb q).all
        (fun r => !isEnvelopedReq r) = true) := by
  refine ⟨by simp [negotiate, h], by simp [negotiate], ?_, ?_⟩
  · intro h1 f vb q
    simp [send_query_requests, h1, isEnvelopedReq]
  · intro h1 f vb q
    simp [send_query_requests, h1, isEnvelopedReq]

/-- Witness for C5 (amended) at the unsupported selected version 7. -/
theorem unsupported_selected_warns_witness :
    (¬ ((VersionResp.mk 7 7).selected = 2 ∨ (VersionResp.mk 7 7).selected = 3)) ∧
    ((negotiate (Except.ok (VersionResp.mk 7 7))).2
        = some (Warn.unsupportedProtocol main_protocol_version 7) ∧
     (negotiate (Except.ok (VersionResp.mk 7 7))).1 = 7 ∧
     ((7 : Int) ≠ 1 → ∀ f vb q,
        (send_query_requests 7 f vb q).all isEnvelopedReq = true) ∧
     ((7 : Int) = 1 → ∀ f vb q,
        (send_query_requests 7 f vb q).all
          (fun r => !isEnvelopedReq r) = true)) :=
  ⟨by decide,
   unsupported_selected_warns (VersionResp.mk 7 7) (by decide)⟩

/-- Counterexample to C5 as stated: when the server selects version 1
(also outside the supported set `{2, 3}`), the warning is surfaced but
every subsequent request uses the legacy array framing, not the oldest
supported version's enveloped framing. -/
theorem unsupported_selected_one_cex :
    (negotiate (Except.ok (VersionResp.mk 1 1))).1 = 1 ∧
    (negotiate (Except.ok (VersionResp.mk 1 1))).2
        = some (Warn.unsupportedProtocol 3 1) ∧
    (send_query_requests 1 (some "a.ml") none [Json.str "errors"]).all
        (fun r => !isEnvelopedReq r) = true :=
  ⟨rfl, rfl, rfl⟩

/-- Unfolding of `syncLoop` when the loop guard holds. -/
theorem syncLoop_step (o : Oracle) (buf : List Char) (endPos cursor : Nat)
    (m : Bool) (s : o.State) (h : m = true ∧ cursor < endPos) :
    syncLoop o buf endPos cursor m s =
      (Msg.tellSource
          ((buf.drop cursor).take (min (cursor + 1024) endPos - cursor)) ::
        (syncLoop o buf endPos (min (cursor + 1024) endPos)
          (o.marker (o.step s (Msg.tellSource
            ((buf.drop cursor).take (min (cursor + 1024) endPos - cursor)))))
          (o.step s (Msg.tellSource
            ((buf.drop cursor).take (min (cursor + 1024) endPos - cursor))))).1,
       (syncLoop o buf endPos (min (cursor + 1024) endPos)
          (o.marker (o.step s (Msg.tellSource
            ((buf.drop cursor).take (min (cursor + 1024) endPos - cursor)))))
          (o.step s (Msg.tellSource
            ((buf.drop cursor).take (min (cursor + 1024) endPos - cursor))))).2) := by
  rw [syncLoop]
  simp only [dif_pos h]

/-- Unfolding of `syncLoop` when the loop guard fails. -/
theorem syncLoop_exit (o : Oracle) (buf : List Char) (endPos cursor : Nat)
    (m : Bool) (s : o.State) (h : ¬ (m = true ∧ cursor < endPos)) :
    syncLoop o buf endPos cursor m s =
      if m then ([Msg.tellEOF], o.step s Msg.tellEOF)
      else ([Msg.seekMarker], o.step s Msg.seekMarker) := by
  rw [syncLoop]
  simp only [dif_neg h]

/-- Structure of the request stream produced by the streaming loop of
`sync_buffer_to`, for a loop entered at `cursor` with last reported marker
`m` in oracle state `s`: some nonempty chunks of at most 1024 characters,
taken consecutively from the buffer starting at the cursor; each chunk is
sent only while the marker reported by the previous response is still
pending; the loop ends with `tell eof` exactly when the marker report at
exit is still pending (in which case the chunks cover everything from the
cursor to the end of the buffer) and with `seek marker` exactly when the
oracle reported the marker satisfied. -/
theorem syncLoop_spec (o : Oracle) (buf : List Char) :
    ∀ (n cursor : Nat), buf.length - cursor ≤ n →
      ∀ (s : o.State) (m : Bool), m = o.marker s →
      ∃ (chunks : List (List Char)) (stop : Bool),
        (syncLoop o buf buf.length cursor m s).1 =
          chunks.map Msg.tellSource ++
            [if stop then Msg.tellEOF else Msg.seekMarker] ∧
        (∀ c ∈ chunks, c.length ≤ 1024 ∧ c ≠ []) ∧
        (∃ k, chunks.flatten = (buf.drop cursor).take k) ∧
        (∀ i < chunks.length,
          o.marker (tellFold o s (chunks.take i)) = true) ∧
        stop = o.marker (tellFold o s chunks) ∧
        (stop = true → chunks.flatten = buf.drop cursor) := by
  have exitCase : ∀ (cursor : Nat) (s : o.State) (m : Bool),
      m = o.marker s → ¬ (m = true ∧ cursor < buf.length) →
      ∃ (chunks : List (List Char)) (stop : Bool),
        (syncLoop o buf buf.length cursor m s).1 =
          chunks.map Msg.tellSource ++
            [if stop then Msg.tellEOF else Msg.seekMarker] ∧
        (∀ c ∈ chunks, c.length ≤ 1024 ∧ c ≠ []) ∧
        (∃ k, chunks.flatten = (buf.drop cursor).take k) ∧
        (∀ i < chunks.length,
          o.marker (tellFold o s (chunks.take i)) = true) ∧
        stop = o.marker (tellFold o s chunks) ∧
        (stop = true → chunks.flatten = buf.drop cursor) := by
    intro cursor s m hm h
    cases m with
    | false =>
      refine ⟨[], false, ?_, by simp, ⟨0, by simp⟩, by simp, ?_, by simp⟩
      · rw [syncLoop_exit o buf buf.length cursor false s h]
        simp
      · simpa [tellFold] using hm
    | true =>
      have hend : buf.length ≤ cursor := by
        by_contra hlt
        exact h ⟨rfl, by omega⟩
      refine ⟨[], true, ?_, by simp, ⟨0, by simp⟩, by simp, ?_, ?_⟩
      · rw [syncLoop_exit o buf buf.length cursor true s h]
        simp
      · simpa [tellFold] using hm
      · intro _
        simp [List.drop_eq_nil_of_le hend]
  intro n
  induction n with
  | zero =>
    intro cursor hn s m hm
    exact exitCase cursor s m hm (by omega)
  | succ n ih =>
    intro cursor hn s m hm
    by_cases h : m = true ∧ cursor < buf.length
    · obtain ⟨hm1, hcur⟩ := h
      have hms : o.marker s = true := by
        rw [← hm]
        exact hm1
      set next := min (cursor + 1024) buf.length with hnext
      set chunk := (buf.drop cursor).take (next - cursor) with hchunk
      set s1 := o.step s (Msg.tellSource chunk) with hs1
      have hcur_lt : cursor < next := by
        rw [hnext]
        exact lt_min (by omega) hcur
      have hnext_le : next ≤ buf.length := by
        rw [hnext]
        exact min_le_right _ _
      have hspan : next - cursor ≤ 1024 := by
        have := min_le_left (cursor + 1024) buf.length
        rw [hnext]
        omega
      obtain ⟨chunks, stop, h1, h2, ⟨k, h3⟩, ha, hb, h4⟩ :=
        ih next (by omega) s1 (o.marker s1) rfl
      have hdrop : (buf.drop cursor).drop (next - cursor) = buf.drop next := by
        rw [List.drop_drop]
        congr 1
        omega
      have hfold : ∀ cs, tellFold o s (chunk :: cs) = tellFold o s1 cs := by
        intro cs
        simp only [tellFold, List.foldl_cons]
      refine ⟨chunk :: chunks, stop, ?_, ?_, ⟨next - cursor + k, ?_⟩,
        ?_, ?_, ?_⟩
      · rw [syncLoop_step o buf buf.length cursor m s ⟨hm1, hcur⟩]
        simp only [← hnext, ← hchunk, ← hs1, h1, List.map_cons,
          List.cons_append]
      · intro c hc
        rcases List.mem_cons.mp hc with hc1 | hc1
        · subst hc1
          refine ⟨?_, ?_⟩
          · rw [hchunk]
            exact le_trans (List.length_take_le _ _) hspan
          · rw [hchunk]
            refine List.length_pos.mp ?_
            rw [List.length_take, List.length_drop]
            rw [lt_min_iff]
            omega
        · exact h2 c hc1
      · rw [List.flatten_cons, List.take_add, hdrop, h3, hchunk]
      · intro i hi
        cases i with
        | zero =>
          simpa [tellFold] using hms
        | succ j =>
          have hj : j < chunks.length := by
            simpa using Nat.lt_of_succ_lt_succ hi
          rw [List.take_succ_cons, hfold]
          exact ha j hj
      · rw [hfold]
        exact hb
      · intro hstop
        rw [List.flatten_cons, h4 hstop, hchunk, ← hdrop,
          List.take_append_drop]
    · exact exitCase cursor s m hm h

/-- C3: for every buffer, target cursor and oracle behaviour,
`sync_buffer_to` first seeks to the start, tells start, tells the content
from offset 0 up to the cursor and places the marker; it then streams the
remaining content in consecutive nonempty chunks of at most 1024
characters, each chunk sent only while the marker report of the previous
response (the `tell_marker` response for the first chunk, the previous
chunk's response after that) is still pending; streaming ends with an
explicit EOF exactly when the marker report at exit is still pending —
which only happens once the told content covers the whole buffer — and
with a seek back to the marker instead of an EOF exactly when the oracle
reports the marker satisfied. -/
theorem sync_buffer_to_protocol (o : Oracle) (s : o.State) (buf : List Char)
    (cursor : Nat) :
    ∃ (chunks : List (List Char)) (stop : Bool),
      (sync_buffer_to o s buf cursor).1 =
        Msg.seekStart :: Msg.tellStart :: Msg.tellSource (buf.take cursor) ::
          Msg.tellMarker ::
          (chunks.map Msg.tellSource ++
            [if stop then Msg.tellEOF else Msg.seekMarker]) ∧
      (∀ c ∈ chunks, c.length ≤ 1024 ∧ c ≠ []) ∧
      (∃ k, chunks.flatten = (buf.drop cursor).take k) ∧
      (∀ i < chunks.length,
        o.marker (tellFold o (preambleState o s buf cursor)
          (chunks.take i)) = true) ∧
      stop = o.marker (tellFold o (preambleState o s buf cursor) chunks) ∧
      (stop = true → buf.take cursor ++ chunks.flatten = buf) := by
  obtain ⟨chunks, stop, h1, h2, h3, ha, hb, h4⟩ :=
    syncLoop_spec o buf (buf.length - cursor) cursor (le_refl _)
      (preambleState o s buf cursor)
      (o.marker (preambleState o s buf cursor)) rfl
  refine ⟨chunks, stop, ?_, h2, h3, ha, hb, ?_⟩
  · simp only [sync_buffer_to]
    rw [h1]
  · intro hstop
    rw [h4 hstop, List.take_append_drop]

/-- C7: for every deterministic oracle for which seeking back to the start
of the file canonicalises its state — the property the always-re-seek at
the top of `sync_buffer_to` relies on — running the same sync twice in a
row with unchanged buffer content and cursor leaves the oracle in exactly
the state a single run produces. -/
theorem sync_buffer_to_idempotent (o : Oracle)
    (hreset : ∀ s t : o.State,
      o.step s Msg.seekStart = o.step t Msg.seekStart)
    (buf : List Char) (cursor : Nat) (s : o.State) :
    (sync_buffer_to o (sync_buffer_to o s buf cursor).2 buf cursor).2
      = (sync_buffer_to o s buf cursor).2 := by
  have key : ∀ t u : o.State,
      (sync_buffer_to o t buf cursor).2 = (sync_buffer_to o u buf cursor).2 := by
    intro t u
    simp only [sync_buffer_to, preambleState]
    rw [hreset t u]
  exact key (sync_buffer_to o s buf cursor).2 s

/-- Witness for C7: the trivial satisfied-marker oracle on a one-character
buffer. -/
theorem sync_buffer_to_idempotent_witness :
    (∀ s t : constOracle.State,
      constOracle.step s Msg.seekStart = constOracle.step t Msg.seekStart) ∧
    (sync_buffer_to constOracle
        (sync_buffer_to constOracle () (String.toList "a") 0).2
        (String.toList "a") 0).2
      = (sync_buffer_to constOracle () (String.toList "a") 0).2 :=
  ⟨fun _ _ => rfl,
   sync_buffer_to_idempotent constOracle (fun _ _ => rfl)
     (String.toList "a") 0 ()⟩

/-- C6 (amended): when the handshake request itself raises, `restart`
records protocol version 1 and subsequent queries use the legacy framing,
but not silently: an "Unsupported version of Merlin binary" message is
surfaced through `sublime.error_message`. -/
theorem handshake_failure_fallback (e : String) :
    negotiate (Except.error e) = (1, some (Warn.unsupportedBinary e)) ∧
    (∀ f vb q, (send_query_requests 1 f vb q).all
        (fun r => !isEnvelopedReq r) = true) :=
  ⟨rfl, fun _ _ _ => rfl⟩

/-- Counterexample to C6 as stated: a failed handshake does surface a
message to the editor (`err_msg` is set in the `except` branch and passed
to `sublime.error_message`), so the fallback is not silent. -/
theorem handshake_failure_not_silent_cex :
    (negotiate (Except.error "handshake failed")).2 ≠ none := by
  simp [negotiate]

end Merlin

namespace Merlin

/-- Witness for C10 at a fresh session acquiring `foo.ml`. -/
theorem acquire_name_set_before_reset_witness :
    (MerlinState.mk none none).name ≠ some "foo.ml" ∧
    ((acquire (MerlinState.mk none none) (some "foo.ml") true).1.name
        = some "foo.ml" ∧
     (acquire (MerlinState.mk none none) (some "foo.ml") true).2.2 = true ∧
     (∀ b, acquire (acquire (MerlinState.mk none none) (some "foo.ml") true).1
            (some "foo.ml") b
        = ((acquire (MerlinState.mk none none) (some "foo.ml") true).1, [],
           false))) :=
  ⟨by simp,
   acquire_name_set_before_reset (MerlinState.mk none none) (some "foo.ml")
     (by simp)⟩

end Merlin
